import Mathlib

/-!
Verification of the versioned-annotation-store of
`vcstopdf-plus-image-version1.py` (class `DocumentationApp`).

The Python program keeps all state in the Streamlit session map:
`task_list` (list of version strings), `code_dict`, `terminal_dict`,
`images_dict` (per-version ordered lists keyed by version string) and
`interpreter_dict` (one record per version).  We embed each Python dict as
an association list over `String` keys with the usual dict semantics
(lookup of the first matching key; assignment replaces in place or appends
a fresh key at the end, which preserves Python dict insertion order).
The Streamlit UI handlers become pure state transformers; calls to
`st.success` / `st.warning` / `st.error` become `Effect` values.
-/

namespace VcsToPdf

/-- A user-visible Streamlit message (`st.success` / `st.warning` / `st.error`). -/
inductive Effect where
  | success (msg : String)
  | warning (msg : String)
  | errorMsg (msg : String)
deriving DecidableEq, Repr

/-- Lookup in a Python-dict modelled as an association list: the value of the
first (and, by dict key-uniqueness, only) entry whose key matches. -/
def dictGet {α : Type} (d : List (String × α)) (k : String) : Option α :=
  match d with
  | [] => none
  | p :: rest => if p.1 = k then some p.2 else dictGet rest k

/-- Python dict assignment `d[k] = v`: replace the entry for `k` in place if
present, otherwise append a fresh entry at the end (insertion order). -/
def dictSet {α : Type} (d : List (String × α)) (k : String) (v : α) : List (String × α) :=
  match d with
  | [] => [(k, v)]
  | p :: rest => if p.1 = k then (k, v) :: rest else p :: dictSet rest k v

/-- Lookup with a default, `d.get(k, dflt)`. -/
def dictGetD {α : Type} (d : List (String × α)) (k : String) (dflt : α) : α :=
  (dictGet d k).getD dflt

/-- The interpreter record stored by the Save Version Information button:
`{'version': interpreter_version, 'timestamp': datetime.now().isoformat()}`. -/
structure InterpRecord where
  version : String
  timestamp : String
deriving DecidableEq, Repr

/-- The session state of `DocumentationApp` (`_initialize_session_state`),
restricted to the keys the program ever writes to after initialisation:
`task_list`, `code_dict`, `interpreter_dict`, `terminal_dict`, `images_dict`.
(`text_dict`, `metrics_dict`, `logs_dict` are initialised but never touched.) -/
structure AppState where
  task_list : List String
  code_dict : List (String × List String)
  interpreter_dict : List (String × InterpRecord)
  terminal_dict : List (String × List String)
  images_dict : List (String × List String)
deriving DecidableEq, Repr

/-- The default session state installed by `_initialize_session_state`. -/
def initState : AppState :=
  { task_list := []
  , code_dict := []
  , interpreter_dict := []
  , terminal_dict := []
  , images_dict := [] }

/-- The "Save Version Information" button handler in `_render_version_section`
(lines 131-141): if `app_version` is truthy (non-empty), append it to
`task_list` when absent and overwrite `interpreter_dict[app_version]`;
otherwise warn and leave the state untouched.  `now` stands for
`datetime.now().isoformat()`. -/
def saveVersionInformation (app_version interpreter_version now : String)
    (s : AppState) : AppState × Effect :=
  if app_version ≠ "" then
    let s1 := if app_version ∈ s.task_list then s
              else { s with task_list := s.task_list ++ [app_version] }
    let r : InterpRecord := { version := interpreter_version, timestamp := now }
    let s2 := { s1 with interpreter_dict := dictSet s1.interpreter_dict app_version r }
    (s2, Effect.success "Version information saved!")
  else
    (s, Effect.warning "Please enter an App Version")

/-- The "Save Code" button handler in `_render_code_and_terminal_section`
(lines 192-196): ensure `code_dict[app_version]` exists as a list, then
append the editor contents. -/
def saveCode (app_version code : String) (s : AppState) : AppState :=
  let d0 := if dictGet s.code_dict app_version = none
            then dictSet s.code_dict app_version []
            else s.code_dict
  { s with code_dict := dictSet d0 app_version (dictGetD d0 app_version [] ++ [code]) }

/-- The "Save Terminal Output" button handler (lines 199-203): same shape as
`saveCode`, on `terminal_dict`. -/
def saveTerminalOutput (app_version terminal_output : String) (s : AppState) : AppState :=
  let d0 := if dictGet s.terminal_dict app_version = none
            then dictSet s.terminal_dict app_version []
            else s.terminal_dict
  { s with terminal_dict :=
      dictSet d0 app_version (dictGetD d0 app_version [] ++ [terminal_output]) }

/-- An uploaded file as seen by `save_uploaded_image`.  `opensOk` models
whether `Image.open(uploaded_file)` succeeds and `verifiesOk` whether
`img.verify()` succeeds; corrupt bytes make one of these raise. -/
structure UploadedFile where
  name : String
  opensOk : Bool
  verifiesOk : Bool
deriving DecidableEq, Repr

/-- The external effects `save_uploaded_image` depends on: the
`uuid.uuid4()` draw and whether `os.makedirs` and `img.save` (the
filesystem write) succeed. -/
structure FsEnv where
  uuid : String
  makedirsOk : Bool
  saveOk : Bool
deriving DecidableEq, Repr

/-- Outcome of `save_uploaded_image`: the returned value (`None` or the
file path), whether the image file was actually written to disk, and the
`st.error` messages emitted on the exception path. -/
structure SaveOutcome where
  result : Option String
  written : Bool
  errors : List String
deriving DecidableEq, Repr

/-- `DocumentationApp.save_uploaded_image` (lines 63-86).  The whole body is
wrapped in `try/except`: any exception from `Image.open`, `img.verify`,
`os.makedirs` or `img.save` is caught, reported via `st.error`, and `None`
is returned; a `None` uploaded file falls through to the final
`return None` with no message. -/
def save_uploaded_image (temp_dir : String) (uploaded_file : Option UploadedFile)
    (app_version : String) (env : FsEnv) : SaveOutcome :=
  match uploaded_file with
  | none => { result := none, written := false, errors := [] }
  | some f =>
    if f.opensOk then
      if f.verifiesOk then
        let unique_filename := env.uuid ++ "_" ++ f.name
        if env.makedirsOk then
          let filepath := temp_dir ++ "/" ++ app_version ++ "/" ++ unique_filename
          if env.saveOk then
            { result := some filepath, written := true, errors := [] }
          else
            { result := none, written := false
            , errors := ["Error saving image: save failed"] }
        else
          { result := none, written := false
          , errors := ["Error saving image: makedirs failed"] }
      else
        { result := none, written := false
        , errors := ["Error saving image: verify failed"] }
    else
      { result := none, written := false
      , errors := ["Error saving image: open failed"] }

/-- One iteration of the upload loop in `_render_image_upload_section`
(lines 160-166): call `save_uploaded_image`; only when it returned a path,
ensure `images_dict[app_version]` exists and append the path. -/
def processUpload (temp_dir app_version : String) (s : AppState)
    (f : UploadedFile) (env : FsEnv) : AppState :=
  match (save_uploaded_image temp_dir (some f) app_version env).result with
  | none => s
  | some saved_path =>
    let d0 := if dictGet s.images_dict app_version = none
              then dictSet s.images_dict app_version []
              else s.images_dict
    { s with images_dict :=
        dictSet d0 app_version (dictGetD d0 app_version [] ++ [saved_path]) }

/-- The full upload loop over a batch of files (`for img in uploaded_images`). -/
def uploadImages (temp_dir app_version : String) (s : AppState)
    (batch : List (UploadedFile × FsEnv)) : AppState :=
  batch.foldl (fun st fe => processUpload temp_dir app_version st fe.1 fe.2) s

/-- The export format radio choice in `_render_export_options`. -/
inductive ExportType where
  | pdf
  | markdown
  | html
deriving DecidableEq, Repr

/-- The "Generate Document" button handler (`_render_export_options`,
lines 246-262): with an empty `task_list` it warns and returns; otherwise it
dispatches to `_generate_pdf` / `_generate_markdown` / `_generate_html`
(lines 267-277), each of which only emits a "not fully implemented" warning.
No branch produces any document bytes. -/
def generateDocument (s : AppState) (export_type : ExportType) : Effect :=
  if s.task_list = [] then
    Effect.warning "No versions to export. Please save some content first."
  else
    match export_type with
    | ExportType.pdf => Effect.warning "PDF generation is not fully implemented yet."
    | ExportType.markdown => Effect.warning "Markdown generation is not fully implemented yet."
    | ExportType.html => Effect.warning "HTML generation is not fully implemented yet."

/-- A user interaction that mutates the store.  The per-section version text
inputs are truthiness-gated (`if app_version:`), so the save/upload handlers
are reachable only with a non-empty version string; `applyOp` models that
gate. -/
inductive Op where
  | saveVersion (v interp now : String)
  | saveCodeOp (v code : String)
  | saveTerminalOp (v out : String)
  | uploadImageOp (v : String) (f : UploadedFile) (env : FsEnv)
deriving DecidableEq, Repr

/-- Apply one UI interaction to the session state. -/
def applyOp (temp_dir : String) (s : AppState) (op : Op) : AppState :=
  match op with
  | Op.saveVersion v interp now => (saveVersionInformation v interp now s).1
  | Op.saveCodeOp v code => if v ≠ "" then saveCode v code s else s
  | Op.saveTerminalOp v out => if v ≠ "" then saveTerminalOutput v out s else s
  | Op.uploadImageOp v f env => if v ≠ "" then processUpload temp_dir v s f env else s

/-- Run a sequence of UI interactions. -/
def runOps (temp_dir : String) (s : AppState) : List Op → AppState
  | [] => s
  | op :: rest => runOps temp_dir (applyOp temp_dir s op) rest

/-- Number of entries of a dict with a given key. -/
def keyCount {α : Type} (d : List (String × α)) (k : String) : Nat :=
  List.count k (d.map Prod.fst)

/-- The code snippets one interaction appends under version `v` (the
per-section gate rejects an empty version string). -/
def codeContribution (v : String) (op : Op) : List String :=
  match op with
  | Op.saveCodeOp u c => if u ≠ "" ∧ u = v then [c] else []
  | _ => []

/-- The terminal outputs one interaction appends under version `v`. -/
def terminalContribution (v : String) (op : Op) : List String :=
  match op with
  | Op.saveTerminalOp u t => if u ≠ "" ∧ u = v then [t] else []
  | _ => []

/-- The image path one interaction stores under version `v`: exactly one
path when the upload's open, verify, makedirs and save steps all succeed. -/
def imageContribution (td v : String) (op : Op) : List String :=
  match op with
  | Op.uploadImageOp u f env =>
    if u ≠ "" ∧ u = v ∧ f.opensOk ∧ f.verifiesOk ∧ env.makedirsOk ∧ env.saveOk
    then [td ++ "/" ++ u ++ "/" ++ (env.uuid ++ "_" ++ f.name)] else []
  | _ => []

/-- The code snippets appended under `v` by a sequence of interactions,
in call order. -/
def appendedCodes (v : String) : List Op → List String
  | [] => []
  | op :: rest => codeContribution v op ++ appendedCodes v rest

/-- The terminal outputs appended under `v`, in call order. -/
def appendedTerminals (v : String) : List Op → List String
  | [] => []
  | op :: rest => terminalContribution v op ++ appendedTerminals v rest

/-- The image paths stored under `v`, in call order. -/
def appendedImagePaths (td v : String) : List Op → List String
  | [] => []
  | op :: rest => imageContribution td v op ++ appendedImagePaths td v rest

/-- A concrete session: version "1.0" saved, one code snippet and one
valid image appended under it. -/
def demoOps : List Op :=
  [ Op.saveVersion "1.0" "3.11.0" "2026-10-12T00:00:00"
  , Op.saveCodeOp "1.0" "print(1)"
  , Op.uploadImageOp "1.0"
      { name := "img.png", opensOk := true, verifiesOk := true }
      { uuid := "u1", makedirsOk := true, saveOk := true } ]

/-! ### Association-list lemmas -/

theorem dictGet_dictSet {α : Type} (d : List (String × α)) (k k' : String) (v : α) :
    dictGet (dictSet d k v) k' = if k = k' then some v else dictGet d k' := by
  induction d with
  | nil =>
    by_cases h : k = k' <;> simp [dictGet, dictSet, h]
  | cons p rest ih =>
    by_cases hp : p.1 = k
    · by_cases h : k = k' <;> simp [dictGet, dictSet, hp, h]
    · by_cases h : p.1 = k' <;> by_cases hk : k = k' <;>
        simp_all [dictGet, dictSet, hp, h, hk]

theorem dictGetD_dictSet {α : Type} (d : List (String × α)) (k k' : String)
    (v dflt : α) :
    dictGetD (dictSet d k v) k' dflt = if k = k' then v else dictGetD d k' dflt := by
  by_cases h : k = k' <;> simp [dictGetD, dictGet_dictSet, h]

theorem dictSet_keys_of_none {α : Type} {d : List (String × α)} {k : String}
    (v : α) (h : dictGet d k = none) :
    (dictSet d k v).map Prod.fst = d.map Prod.fst ++ [k] := by
  induction d with
  | nil => simp [dictSet]
  | cons p rest ih =>
    by_cases hp : p.1 = k
    · rw [dictGet] at h
      simp [hp] at h
    · rw [dictGet] at h
      simp only [hp, if_false] at h
      simp [dictSet, hp, ih h]

theorem dictSet_keys_of_some {α : Type} {d : List (String × α)} {k : String}
    (v w : α) (h : dictGet d k = some w) :
    (dictSet d k v).map Prod.fst = d.map Prod.fst := by
  induction d with
  | nil => simp [dictGet] at h
  | cons p rest ih =>
    by_cases hp : p.1 = k
    · simp [dictSet, hp]
    · rw [dictGet] at h
      simp only [hp, if_false] at h
      simp [dictSet, hp, ih h]

theorem dictGet_eq_none_iff {α : Type} (d : List (String × α)) (k : String) :
    dictGet d k = none ↔ k ∉ d.map Prod.fst := by
  induction d with
  | nil => simp [dictGet]
  | cons p rest ih =>
    by_cases hp : p.1 = k <;> simp [dictGet, hp, ih]
    intro h
    exact fun hk => hp hk.symm

theorem keyCount_dictSet_of_none {α : Type} {d : List (String × α)} {k : String}
    (v : α) (h : dictGet d k = none) (k' : String) :
    keyCount (dictSet d k v) k' = keyCount d k' + if k' = k then 1 else 0 := by
  unfold keyCount
  rw [dictSet_keys_of_none v h, List.count_append]
  by_cases hk : k' = k <;> simp [hk]

theorem keyCount_dictSet_of_some {α : Type} {d : List (String × α)} {k : String}
    (v w : α) (h : dictGet d k = some w) (k' : String) :
    keyCount (dictSet d k v) k' = keyCount d k' := by
  unfold keyCount
  rw [dictSet_keys_of_some v w h]

/-! ### Per-operation effect lemmas -/

theorem saveCode_code_dict (v c : String) (s : AppState) (k : String) :
    dictGetD (saveCode v c s).code_dict k [] =
      dictGetD s.code_dict k [] ++ if v = k then [c] else [] := by
  unfold saveCode
  by_cases hk : v = k
  · subst hk
    by_cases hd : dictGet s.code_dict v = none <;>
      simp [hd, dictGetD, dictGet_dictSet]
  · by_cases hd : dictGet s.code_dict v = none <;>
      simp [hd, hk, dictGetD, dictGet_dictSet]

theorem saveCode_only_code (v c : String) (s : AppState) :
    (saveCode v c s).task_list = s.task_list ∧
    (saveCode v c s).terminal_dict = s.terminal_dict ∧
    (saveCode v c s).images_dict = s.images_dict ∧
    (saveCode v c s).interpreter_dict = s.interpreter_dict := by
  unfold saveCode
  exact ⟨rfl, rfl, rfl, rfl⟩

theorem saveTerminalOutput_terminal_dict (v t : String) (s : AppState) (k : String) :
    dictGetD (saveTerminalOutput v t s).terminal_dict k [] =
      dictGetD s.terminal_dict k [] ++ if v = k then [t] else [] := by
  unfold saveTerminalOutput
  by_cases hk : v = k
  · subst hk
    by_cases hd : dictGet s.terminal_dict v = none <;>
      simp [hd, dictGetD, dictGet_dictSet]
  · by_cases hd : dictGet s.terminal_dict v = none <;>
      simp [hd, hk, dictGetD, dictGet_dictSet]

theorem saveTerminalOutput_only_terminal (v t : String) (s : AppState) :
    (saveTerminalOutput v t s).task_list = s.task_list ∧
    (saveTerminalOutput v t s).code_dict = s.code_dict ∧
    (saveTerminalOutput v t s).images_dict = s.images_dict ∧
    (saveTerminalOutput v t s).interpreter_dict = s.interpreter_dict := by
  unfold saveTerminalOutput
  exact ⟨rfl, rfl, rfl, rfl⟩

/-- Characterisation of the value `save_uploaded_image` returns on a present
file: the version-namespaced, uuid-prefixed path exactly when open, verify,
makedirs and save all succeed, `none` otherwise. -/
theorem save_uploaded_image_result (td : String) (f : UploadedFile) (v : String)
    (env : FsEnv) :
    (save_uploaded_image td (some f) v env).result =
      if f.opensOk ∧ f.verifiesOk ∧ env.makedirsOk ∧ env.saveOk
      then some (td ++ "/" ++ v ++ "/" ++ (env.uuid ++ "_" ++ f.name))
      else none := by
  unfold save_uploaded_image
  cases ho : f.opensOk <;> cases hv : f.verifiesOk <;>
    cases hm : env.makedirsOk <;> cases hs : env.saveOk <;> simp [ho, hv, hm, hs]

theorem processUpload_images_dict (td v : String) (s : AppState)
    (f : UploadedFile) (env : FsEnv) (k : String) :
    dictGetD (processUpload td v s f env).images_dict k [] =
      dictGetD s.images_dict k [] ++
        if v = k ∧ f.opensOk ∧ f.verifiesOk ∧ env.makedirsOk ∧ env.saveOk
        then [td ++ "/" ++ v ++ "/" ++ (env.uuid ++ "_" ++ f.name)] else [] := by
  unfold processUpload
  rw [save_uploaded_image_result]
  by_cases hok : f.opensOk ∧ f.verifiesOk ∧ env.makedirsOk ∧ env.saveOk
  · by_cases hk : v = k
    · subst hk
      by_cases hd : dictGet s.images_dict v = none <;>
        simp [hok, hd, dictGetD, dictGet_dictSet]
    · by_cases hd : dictGet s.images_dict v = none <;>
        simp [hok, hd, hk, dictGetD, dictGet_dictSet]
  · simp only [hok, if_false]
    simp [fun h : v = k ∧ f.opensOk = true ∧ f.verifiesOk = true ∧
      env.makedirsOk = true ∧ env.saveOk = true => hok h.2]

theorem processUpload_only_images (td v : String) (s : AppState)
    (f : UploadedFile) (env : FsEnv) :
    (processUpload td v s f env).task_list = s.task_list ∧
    (processUpload td v s f env).code_dict = s.code_dict ∧
    (processUpload td v s f env).terminal_dict = s.terminal_dict ∧
    (processUpload td v s f env).interpreter_dict = s.interpreter_dict := by
  unfold processUpload
  cases (save_uploaded_image td (some f) v env).result <;>
    exact ⟨rfl, rfl, rfl, rfl⟩

theorem saveVersionInformation_other (v i now : String) (s : AppState) :
    ((saveVersionInformation v i now s).1).code_dict = s.code_dict ∧
    ((saveVersionInformation v i now s).1).terminal_dict = s.terminal_dict ∧
    ((saveVersionInformation v i now s).1).images_dict = s.images_dict := by
  unfold saveVersionInformation
  by_cases hv : v ≠ "" <;> by_cases hm : v ∈ s.task_list <;>
    simp [hv, hm]

/-! ### Accumulation over interaction sequences -/

theorem runOps_append (td : String) (ops : List Op) (op : Op) :
    ∀ s, runOps td s (ops ++ [op]) = applyOp td (runOps td s ops) op := by
  induction ops with
  | nil => intro s; simp [runOps]
  | cons o rest ih => intro s; simp [runOps, ih]

theorem applyOp_code_dict (td : String) (op : Op) (s : AppState) (v : String) :
    dictGetD (applyOp td s op).code_dict v [] =
      dictGetD s.code_dict v [] ++ codeContribution v op := by
  cases op with
  | saveVersion u i now =>
    simp [applyOp, codeContribution, (saveVersionInformation_other u i now s).1]
  | saveCodeOp u c =>
    by_cases hv : u = ""
    · simp [applyOp, codeContribution, hv]
    · by_cases hk : u = v
      · subst hk
        simp [applyOp, codeContribution, hv, saveCode_code_dict]
      · simp [applyOp, codeContribution, hv, hk, saveCode_code_dict]
  | saveTerminalOp u t =>
    by_cases hv : u = "" <;>
      simp [applyOp, codeContribution, hv, (saveCode_only_code u t s).1,
        (saveTerminalOutput_only_terminal u t s).2.1]
  | uploadImageOp u f env =>
    by_cases hv : u = "" <;>
      simp [applyOp, codeContribution, hv, (processUpload_only_images td u s f env).2.1]

theorem applyOp_terminal_dict (td : String) (op : Op) (s : AppState) (v : String) :
    dictGetD (applyOp td s op).terminal_dict v [] =
      dictGetD s.terminal_dict v [] ++ terminalContribution v op := by
  cases op with
  | saveVersion u i now =>
    simp [applyOp, terminalContribution, (saveVersionInformation_other u i now s).2.1]
  | saveCodeOp u c =>
    by_cases hv : u = "" <;>
      simp [applyOp, terminalContribution, hv, (saveCode_only_code u c s).2.1]
  | saveTerminalOp u t =>
    by_cases hv : u = ""
    · simp [applyOp, terminalContribution, hv]
    · by_cases hk : u = v
      · subst hk
        simp [applyOp, terminalContribution, hv, saveTerminalOutput_terminal_dict]
      · simp [applyOp, terminalContribution, hv, hk, saveTerminalOutput_terminal_dict]
  | uploadImageOp u f env =>
    by_cases hv : u = "" <;>
      simp [applyOp, terminalContribution, hv,
        (processUpload_only_images td u s f env).2.2.1]

theorem applyOp_images_dict (td : String) (op : Op) (s : AppState) (v : String) :
    dictGetD (applyOp td s op).images_dict v [] =
      dictGetD s.images_dict v [] ++ imageContribution td v op := by
  cases op with
  | saveVersion u i now =>
    simp [applyOp, imageContribution, (saveVersionInformation_other u i now s).2.2]
  | saveCodeOp u c =>
    by_cases hv : u = "" <;>
      simp [applyOp, imageContribution, hv, (saveCode_only_code u c s).2.2.1]
  | saveTerminalOp u t =>
    by_cases hv : u = "" <;>
      simp [applyOp, imageContribution, hv,
        (saveTerminalOutput_only_terminal u t s).2.2.1]
  | uploadImageOp u f env =>
    by_cases hv : u = ""
    · simp [applyOp, imageContribution, hv]
    · by_cases hk : u = v
      · subst hk
        rw [applyOp]
        simp only [hv, ne_eq, not_false_iff, if_true]
        rw [processUpload_images_dict]
        by_cases hok : f.opensOk = true ∧ f.verifiesOk = true ∧
            env.makedirsOk = true ∧ env.saveOk = true <;>
          simp [imageContribution, hv, hok]
      · rw [applyOp]
        simp only [hv, ne_eq, not_false_iff, if_true]
        rw [processUpload_images_dict]
        simp [imageContribution, hv, hk]

theorem runOps_code_dict (td : String) (ops : List Op) :
    ∀ s v, dictGetD (runOps td s ops).code_dict v [] =
      dictGetD s.code_dict v [] ++ appendedCodes v ops := by
  induction ops with
  | nil => intro s v; simp [runOps, appendedCodes]
  | cons op rest ih =>
    intro s v
    rw [runOps, ih, appendedCodes, applyOp_code_dict, List.append_assoc]

theorem runOps_terminal_dict (td : String) (ops : List Op) :
    ∀ s v, dictGetD (runOps td s ops).terminal_dict v [] =
      dictGetD s.terminal_dict v [] ++ appendedTerminals v ops := by
  induction ops with
  | nil => intro s v; simp [runOps, appendedTerminals]
  | cons op rest ih =>
    intro s v
    rw [runOps, ih, appendedTerminals, applyOp_terminal_dict, List.append_assoc]

theorem runOps_images_dict (td : String) (ops : List Op) :
    ∀ s v, dictGetD (runOps td s ops).images_dict v [] =
      dictGetD s.images_dict v [] ++ appendedImagePaths td v ops := by
  induction ops with
  | nil => intro s v; simp [runOps, appendedImagePaths]
  | cons op rest ih =>
    intro s v
    rw [runOps, ih, appendedImagePaths, applyOp_images_dict, List.append_assoc]

/-! ### Version-list and interpreter-record lemmas -/

theorem saveVersion_task_list (v i now : String) (s : AppState) :
    ((saveVersionInformation v i now s).1).task_list =
      if v ≠ "" ∧ v ∉ s.task_list then s.task_list ++ [v] else s.task_list := by
  unfold saveVersionInformation
  by_cases hv : v ≠ "" <;> by_cases hm : v ∈ s.task_list <;> simp [hv, hm]

theorem saveVersion_interpreter_dict (v i now : String) (s : AppState) (hv : v ≠ "") :
    ((saveVersionInformation v i now s).1).interpreter_dict =
      dictSet s.interpreter_dict v { version := i, timestamp := now } := by
  unfold saveVersionInformation
  by_cases hm : v ∈ s.task_list <;> simp [hv, hm]

theorem applyOp_count_task_list (td : String) (op : Op) (s : AppState) (w : String) :
    List.count w (applyOp td s op).task_list = List.count w s.task_list ∨
      (List.count w s.task_list = 0 ∧
        List.count w (applyOp td s op).task_list = 1) := by
  cases op with
  | saveVersion v i now =>
    rw [applyOp, saveVersion_task_list]
    by_cases hc : v ≠ "" ∧ v ∉ s.task_list
    · rw [if_pos hc, List.count_append]
      by_cases hw : w = v
      · subst hw
        right
        have h0 : List.count w s.task_list = 0 := List.count_eq_zero.mpr hc.2
        simp [h0]
      · left
        have h0 : List.count w [v] = 0 := by
          rw [List.count_eq_zero]
          simp [hw]
        simp [h0]
    · rw [if_neg hc]
      left
      rfl
  | saveCodeOp v c =>
    left
    by_cases hv : v = "" <;> simp [applyOp, hv, (saveCode_only_code v c s).1]
  | saveTerminalOp v t =>
    left
    by_cases hv : v = "" <;>
      simp [applyOp, hv, (saveTerminalOutput_only_terminal v t s).1]
  | uploadImageOp v f env =>
    left
    by_cases hv : v = "" <;>
      simp [applyOp, hv, (processUpload_only_images td v s f env).1]

theorem runOps_count_task_list_le_one (td : String) (ops : List Op) :
    ∀ s, (∀ u, List.count u s.task_list ≤ 1) →
      ∀ w, List.count w (runOps td s ops).task_list ≤ 1 := by
  induction ops with
  | nil => intro s h w; exact h w
  | cons op rest ih =>
    intro s h w
    rw [runOps]
    refine ih (applyOp td s op) (fun u => ?_) w
    rcases applyOp_count_task_list td op s u with h1 | ⟨_, h1⟩
    · rw [h1]
      exact h u
    · rw [h1]

theorem keyCount_eq_zero_iff {α : Type} (d : List (String × α)) (k : String) :
    keyCount d k = 0 ↔ dictGet d k = none := by
  unfold keyCount
  rw [List.count_eq_zero, dictGet_eq_none_iff]

theorem keyCount_dictSet_self {α : Type} (d : List (String × α)) (k : String)
    (v : α) (h : keyCount d k ≤ 1) : keyCount (dictSet d k v) k = 1 := by
  cases hd : dictGet d k with
  | none =>
    rw [keyCount_dictSet_of_none v hd]
    simp [(keyCount_eq_zero_iff d k).mpr hd]
  | some x =>
    rw [keyCount_dictSet_of_some v x hd]
    have h1 : keyCount d k ≠ 0 := by
      intro h0
      rw [keyCount_eq_zero_iff] at h0
      rw [h0] at hd
      cases hd
    omega

theorem keyCount_dictSet_le_one {α : Type} (d : List (String × α)) (k : String)
    (v : α) (h : ∀ w, keyCount d w ≤ 1) :
    ∀ w, keyCount (dictSet d k v) w ≤ 1 := by
  intro w
  by_cases hw : w = k
  · subst hw
    rw [keyCount_dictSet_self d w v (h w)]
  · cases hd : dictGet d k with
    | none =>
      rw [keyCount_dictSet_of_none v hd]
      simp [hw]
      exact h w
    | some x =>
      rw [keyCount_dictSet_of_some v x hd]
      exact h w

theorem applyOp_interpreter_cases (td : String) (op : Op) (s : AppState) :
    (applyOp td s op).interpreter_dict = s.interpreter_dict ∨
      ∃ v i now, (applyOp td s op).interpreter_dict =
        dictSet s.interpreter_dict v { version := i, timestamp := now } := by
  cases op with
  | saveVersion v i now =>
    by_cases hv : v ≠ ""
    · right
      exact ⟨v, i, now, saveVersion_interpreter_dict v i now s hv⟩
    · left
      unfold applyOp saveVersionInformation
      simp [hv]
  | saveCodeOp v c =>
    left
    by_cases hv : v = "" <;>
      simp [applyOp, hv, (saveCode_only_code v c s).2.2.2]
  | saveTerminalOp v t =>
    left
    by_cases hv : v = "" <;>
      simp [applyOp, hv, (saveTerminalOutput_only_terminal v t s).2.2.2]
  | uploadImageOp v f env =>
    left
    by_cases hv : v = "" <;>
      simp [applyOp, hv, (processUpload_only_images td v s f env).2.2.2]

theorem runOps_keyCount_interpreter_le_one (td : String) (ops : List Op) :
    ∀ s, (∀ w, keyCount s.interpreter_dict w ≤ 1) →
      ∀ w, keyCount (runOps td s ops).interpreter_dict w ≤ 1 := by
  induction ops with
  | nil => intro s h w; exact h w
  | cons op rest ih =>
    intro s h w
    rw [runOps]
    refine ih (applyOp td s op) (fun u => ?_) w
    rcases applyOp_interpreter_cases td op s with h1 | ⟨v, i, now, h1⟩ <;> rw [h1]
    · exact h u
    · exact keyCount_dictSet_le_one _ _ _ h u

/-! ### Claim theorems -/

/-- C1: the spec's round-trip PDF export (non-empty `%PDF-` buffer with a
heading for "1.0", a Links, Code and Image section) does not happen in this
code: on a store holding version "1.0" with an appended code snippet and a
successfully stored image, the "Generate Document" PDF branch only emits the
warning "PDF generation is not fully implemented yet." and produces no
document bytes at all (`_generate_pdf` is a stub; the code also has no
link-append operation). -/
theorem c1_pdf_export_is_stub :
    generateDocument (runOps "/tmp" initState demoOps) ExportType.pdf =
      Effect.warning "PDF generation is not fully implemented yet." ∧
    (runOps "/tmp" initState demoOps).task_list = ["1.0"] ∧
    dictGet (runOps "/tmp" initState demoOps).code_dict "1.0" = some ["print(1)"] ∧
    dictGet (runOps "/tmp" initState demoOps).images_dict "1.0" =
      some ["/tmp/1.0/u1_img.png"] := by
  refine ⟨?_, ?_, ?_, ?_⟩ <;> rfl

/-- C2 counterexample: a Save Code interaction under the fresh version "v1"
creates `code_dict["v1"]` but does not register "v1" in `task_list`, so an
append does not create the version entry in the version list. -/
theorem c2_counterexample :
    (runOps "/tmp" initState [Op.saveCodeOp "v1" "c1"]).task_list = [] ∧
    dictGet (runOps "/tmp" initState [Op.saveCodeOp "v1" "c1"]).code_dict "v1" =
      some ["c1"] := by
  exact ⟨rfl, rfl⟩

/-- C2 (amended): every append operation (code, terminal log, image) under a
non-empty version id creates the per-kind sequence if absent and appends to
it, but leaves `task_list` unchanged: appends never register the version in
the version list. -/
theorem c2_append_creates_sequence_not_version (td v : String) (hv : v ≠ "")
    (c t : String) (f : UploadedFile) (env : FsEnv) (s : AppState) :
    (dictGetD (applyOp td s (Op.saveCodeOp v c)).code_dict v [] =
        dictGetD s.code_dict v [] ++ [c] ∧
      (applyOp td s (Op.saveCodeOp v c)).task_list = s.task_list) ∧
    (dictGetD (applyOp td s (Op.saveTerminalOp v t)).terminal_dict v [] =
        dictGetD s.terminal_dict v [] ++ [t] ∧
      (applyOp td s (Op.saveTerminalOp v t)).task_list = s.task_list) ∧
    (dictGetD (applyOp td s (Op.uploadImageOp v f env)).images_dict v [] =
        dictGetD s.images_dict v [] ++
          imageContribution td v (Op.uploadImageOp v f env) ∧
      (applyOp td s (Op.uploadImageOp v f env)).task_list = s.task_list) := by
  refine ⟨⟨?_, ?_⟩, ⟨?_, ?_⟩, ⟨?_, ?_⟩⟩
  · rw [applyOp_code_dict]
    simp [codeContribution, hv]
  · simp [applyOp, hv, (saveCode_only_code v c s).1]
  · rw [applyOp_terminal_dict]
    simp [terminalContribution, hv]
  · simp [applyOp, hv, (saveTerminalOutput_only_terminal v t s).1]
  · exact applyOp_images_dict td (Op.uploadImageOp v f env) s v
  · simp [applyOp, hv, (processUpload_only_images td v s f env).1]

/-- C2 witness: the amended theorem applied at a concrete input. -/
theorem c2_witness :
    ("v1" : String) ≠ "" ∧
    ((dictGetD (applyOp "/tmp" initState (Op.saveCodeOp "v1" "c1")).code_dict "v1" [] =
        dictGetD initState.code_dict "v1" [] ++ ["c1"] ∧
      (applyOp "/tmp" initState (Op.saveCodeOp "v1" "c1")).task_list = initState.task_list) ∧
    (dictGetD (applyOp "/tmp" initState (Op.saveTerminalOp "v1" "t1")).terminal_dict "v1" [] =
        dictGetD initState.terminal_dict "v1" [] ++ ["t1"] ∧
      (applyOp "/tmp" initState (Op.saveTerminalOp "v1" "t1")).task_list = initState.task_list) ∧
    (dictGetD (applyOp "/tmp" initState
          (Op.uploadImageOp "v1" { name := "a.png", opensOk := true, verifiesOk := true }
            { uuid := "u", makedirsOk := true, saveOk := true })).images_dict "v1" [] =
        dictGetD initState.images_dict "v1" [] ++
          imageContribution "/tmp" "v1"
            (Op.uploadImageOp "v1" { name := "a.png", opensOk := true, verifiesOk := true }
              { uuid := "u", makedirsOk := true, saveOk := true }) ∧
      (applyOp "/tmp" initState
          (Op.uploadImageOp "v1" { name := "a.png", opensOk := true, verifiesOk := true }
            { uuid := "u", makedirsOk := true, saveOk := true })).task_list =
        initState.task_list)) :=
  ⟨by decide,
   c2_append_creates_sequence_not_version "/tmp" "v1" (by decide) "c1" "t1"
     { name := "a.png", opensOk := true, verifiesOk := true }
     { uuid := "u", makedirsOk := true, saveOk := true } initState⟩

/-- C8 counterexample: with version "A" saved the store is non-empty, and
the export operation — which takes no version selector at all — does not
fail with the empty-selection warning; it reaches the format branch instead.
So an export scoped to a version absent from a non-empty store cannot fail
with `EmptySelection` in this code. -/
theorem c8_counterexample :
    (runOps "/tmp" initState [Op.saveVersion "A" "" "t0"]).task_list = ["A"] ∧
    generateDocument (runOps "/tmp" initState [Op.saveVersion "A" "" "t0"])
        ExportType.pdf ≠
      Effect.warning "No versions to export. Please save some content first." := by
  exact ⟨rfl, by decide⟩

/-- C8 (amended): the export operation has no version selector; it fails
with the non-fatal warning "No versions to export. Please save some content
first." — and produces no artifact, since no branch of `generateDocument`
builds one — exactly when the store's version list is empty. -/
theorem c8_empty_selection_iff (s : AppState) (t : ExportType) :
    generateDocument s t =
      Effect.warning "No versions to export. Please save some content first." ↔
    s.task_list = [] := by
  unfold generateDocument
  by_cases h : s.task_list = []
  · simp [h]
  · cases t <;> simp [h]

/-- C9: saving version information with an empty version string emits the
warning "Please enter an App Version" and returns the store unchanged: no
version entry and no interpreter record is written. -/
theorem c9_empty_version_rejected (i now : String) (s : AppState) :
    saveVersionInformation "" i now s =
      (s, Effect.warning "Please enter an App Version") := by
  unfold saveVersionInformation
  simp

/-- C10: `save_uploaded_image` is total over its error branch: for every
input (including a missing file and failures of open, verify, makedirs or
save) it returns `none` rather than propagating, and it returns a path only
when the image file was actually written. -/
theorem c10_save_uploaded_image_total (td : String) (uf : Option UploadedFile)
    (v : String) (env : FsEnv) :
    (save_uploaded_image td uf v env).result = none ∨
      ((save_uploaded_image td uf v env).written = true ∧
        ∃ p, (save_uploaded_image td uf v env).result = some p) := by
  unfold save_uploaded_image
  cases uf with
  | none => exact Or.inl rfl
  | some f =>
    cases ho : f.opensOk <;> cases hv : f.verifiesOk <;>
      cases hm : env.makedirsOk <;> cases hs : env.saveOk <;> simp [ho, hv, hm, hs]

/-- C3: after any finite sequence of interactions, the stored per-kind
collection of every version `v` is exactly the list of items appended under
`v`, in call order — no reordering, dropping or deduplication by any
operation. -/
theorem c3_append_order_preservation (td : String) (ops : List Op) (v : String) :
    dictGetD (runOps td initState ops).code_dict v [] = appendedCodes v ops ∧
    dictGetD (runOps td initState ops).terminal_dict v [] = appendedTerminals v ops ∧
    dictGetD (runOps td initState ops).images_dict v [] = appendedImagePaths td v ops := by
  refine ⟨?_, ?_, ?_⟩
  · rw [runOps_code_dict]
    simp [initState, dictGetD, dictGet]
  · rw [runOps_terminal_dict]
    simp [initState, dictGetD, dictGet]
  · rw [runOps_images_dict]
    simp [initState, dictGetD, dictGet]

/-- C4: registering a version is idempotent: after any interaction sequence
followed by a Save Version Information for a non-empty `v`, `v` appears
exactly once in `task_list`; repeating the save any number of times (as part
of the prefix) keeps the count at exactly one. -/
theorem c4_save_version_idempotent (td : String) (ops : List Op)
    (v i now : String) (hv : v ≠ "") :
    List.count v (runOps td initState
        (ops ++ [Op.saveVersion v i now])).task_list = 1 := by
  rw [runOps_append]
  have hle := runOps_count_task_list_le_one td ops initState
    (by intro u; simp [initState]) v
  rw [applyOp, saveVersion_task_list]
  by_cases hm : v ∈ (runOps td initState ops).task_list
  · rw [if_neg (by simp [hm])]
    have h1 : 0 < List.count v (runOps td initState ops).task_list := by
      rw [List.count_pos_iff]
      exact hm
    omega
  · rw [if_pos ⟨hv, hm⟩, List.count_append, List.count_eq_zero.mpr hm]
    simp

/-- C4 witness: the theorem applied at a concrete input. -/
theorem c4_witness :
    ("1.0" : String) ≠ "" ∧
    List.count "1.0" (runOps "/tmp" initState
        ([Op.saveVersion "1.0" "3" "t0"] ++ [Op.saveVersion "1.0" "3" "t1"])).task_list = 1 :=
  ⟨by decide,
   c4_save_version_idempotent "/tmp" [Op.saveVersion "1.0" "3" "t0"] "1.0" "3" "t1"
     (by decide)⟩

/-- C5: setting interpreter info is last-write-wins: from any reachable
store, two successive Save Version Information interactions for a non-empty
`v` leave exactly one interpreter record for `v`, holding the second value;
and every version holds at most one interpreter record at all times (in
every reachable store and after the two saves). -/
theorem c5_interpreter_last_write_wins (td : String) (ops : List Op)
    (v i1 now1 i2 now2 : String) (hv : v ≠ "") :
    dictGet ((saveVersionInformation v i2 now2
        ((saveVersionInformation v i1 now1 (runOps td initState ops)).1)).1).interpreter_dict v =
      some { version := i2, timestamp := now2 } ∧
    keyCount ((saveVersionInformation v i2 now2
        ((saveVersionInformation v i1 now1 (runOps td initState ops)).1)).1).interpreter_dict v = 1 ∧
    (∀ w, keyCount (runOps td initState ops).interpreter_dict w ≤ 1) ∧
    (∀ w, keyCount ((saveVersionInformation v i2 now2
        ((saveVersionInformation v i1 now1 (runOps td initState ops)).1)).1).interpreter_dict w ≤ 1) := by
  have hbase : ∀ w, keyCount (runOps td initState ops).interpreter_dict w ≤ 1 :=
    runOps_keyCount_interpreter_le_one td ops initState
      (by intro w; simp [initState, keyCount])
  have h1 := saveVersion_interpreter_dict v i1 now1 (runOps td initState ops) hv
  have h2 := saveVersion_interpreter_dict v i2 now2
    ((saveVersionInformation v i1 now1 (runOps td initState ops)).1) hv
  rw [h2, h1]
  refine ⟨?_, ?_, hbase, ?_⟩
  · rw [dictGet_dictSet]
    simp
  · exact keyCount_dictSet_self _ _ _ (keyCount_dictSet_le_one _ _ _ hbase v)
  · exact keyCount_dictSet_le_one _ _ _ (keyCount_dictSet_le_one _ _ _ hbase)

/-- C5 witness: the theorem applied at a concrete input. -/
theorem c5_witness :
    ("1.0" : String) ≠ "" ∧
    (dictGet ((saveVersionInformation "1.0" "r2" "t2"
        ((saveVersionInformation "1.0" "r1" "t1" (runOps "/tmp" initState [])).1)).1).interpreter_dict "1.0" =
      some { version := "r2", timestamp := "t2" } ∧
    keyCount ((saveVersionInformation "1.0" "r2" "t2"
        ((saveVersionInformation "1.0" "r1" "t1" (runOps "/tmp" initState [])).1)).1).interpreter_dict "1.0" = 1 ∧
    (∀ w, keyCount (runOps "/tmp" initState []).interpreter_dict w ≤ 1) ∧
    (∀ w, keyCount ((saveVersionInformation "1.0" "r2" "t2"
        ((saveVersionInformation "1.0" "r1" "t1" (runOps "/tmp" initState [])).1)).1).interpreter_dict w ≤ 1)) :=
  ⟨by decide,
   c5_interpreter_last_write_wins "/tmp" [] "1.0" "r1" "t1" "r2" "t2" (by decide)⟩

/-- C6: an upload whose bytes fail image open/verify is rejected: the save
returns `None` after reporting an error, and removing the corrupt item from
a batch does not change the resulting store — so the version's image
collection is unchanged in length and prior and subsequent batch items are
unaffected. -/
theorem c6_invalid_image_rejected (td v : String) (s : AppState)
    (f : UploadedFile) (env : FsEnv) (pre post : List (UploadedFile × FsEnv))
    (hbad : f.opensOk = false ∨ f.verifiesOk = false) :
    (save_uploaded_image td (some f) v env).result = none ∧
    (save_uploaded_image td (some f) v env).errors ≠ [] ∧
    uploadImages td v s (pre ++ (f, env) :: post) = uploadImages td v s (pre ++ post) := by
  have hstate : ∀ s' : AppState, processUpload td v s' f env = s' := by
    intro s'
    unfold processUpload
    rw [save_uploaded_image_result]
    rcases hbad with h | h <;> simp [h]
  refine ⟨?_, ?_, ?_⟩
  · rw [save_uploaded_image_result]
    rcases hbad with h | h <;> simp [h]
  · rcases hbad with h | h
    · simp [save_uploaded_image, h]
    · cases ho : f.opensOk <;> simp [save_uploaded_image, ho, h]
  · unfold uploadImages
    rw [List.foldl_append, List.foldl_append, List.foldl_cons, hstate]

/-- C6 witness: the theorem applied to a batch with one valid item before
and one after the corrupt item. -/
theorem c6_witness :
    ((⟨"bad.png", false, true⟩ : UploadedFile).opensOk = false ∨
      (⟨"bad.png", false, true⟩ : UploadedFile).verifiesOk = false) ∧
    ((save_uploaded_image "/tmp" (some ⟨"bad.png", false, true⟩) "v"
        ⟨"u2", true, true⟩).result = none ∧
    (save_uploaded_image "/tmp" (some ⟨"bad.png", false, true⟩) "v"
        ⟨"u2", true, true⟩).errors ≠ [] ∧
    uploadImages "/tmp" "v" initState
        ([(⟨"a.png", true, true⟩, ⟨"u1", true, true⟩)] ++
          (⟨"bad.png", false, true⟩, ⟨"u2", true, true⟩) ::
            [(⟨"b.png", true, true⟩, ⟨"u3", true, true⟩)]) =
      uploadImages "/tmp" "v" initState
        ([(⟨"a.png", true, true⟩, ⟨"u1", true, true⟩)] ++
          [(⟨"b.png", true, true⟩, ⟨"u3", true, true⟩)])) :=
  ⟨Or.inl rfl,
   c6_invalid_image_rejected "/tmp" "v" initState ⟨"bad.png", false, true⟩
     ⟨"u2", true, true⟩ [(⟨"a.png", true, true⟩, ⟨"u1", true, true⟩)]
     [(⟨"b.png", true, true⟩, ⟨"u3", true, true⟩)] (Or.inl rfl)⟩

/-- C7: when the filesystem write (`img.save`) fails, `save_uploaded_image`
returns `None` with nothing written, and the upload step leaves the store —
in particular the version's image collection — completely unchanged: a path
that was not written is never recorded. -/
theorem c7_storage_write_failure_atomic (td v : String) (s : AppState)
    (f : UploadedFile) (env : FsEnv) (hw : env.saveOk = false) :
    (save_uploaded_image td (some f) v env).result = none ∧
    (save_uploaded_image td (some f) v env).written = false ∧
    processUpload td v s f env = s := by
  refine ⟨?_, ?_, ?_⟩
  · rw [save_uploaded_image_result]
    simp [hw]
  · cases ho : f.opensOk <;> cases hv : f.verifiesOk <;>
      cases hm : env.makedirsOk <;>
        simp [save_uploaded_image, ho, hv, hm, hw]
  · unfold processUpload
    rw [save_uploaded_image_result]
    simp [hw]

/-- C7 witness: the theorem applied at a concrete input. -/
theorem c7_witness :
    (⟨"u", true, false⟩ : FsEnv).saveOk = false ∧
    ((save_uploaded_image "/tmp" (some ⟨"a.png", true, true⟩) "v"
        ⟨"u", true, false⟩).result = none ∧
    (save_uploaded_image "/tmp" (some ⟨"a.png", true, true⟩) "v"
        ⟨"u", true, false⟩).written = false ∧
    processUpload "/tmp" "v" initState ⟨"a.png", true, true⟩ ⟨"u", true, false⟩ =
      initState) :=
  ⟨rfl,
   c7_storage_write_failure_atomic "/tmp" "v" initState ⟨"a.png", true, true⟩
     ⟨"u", true, false⟩ rfl⟩

end VcsToPdf
